import Mathlib

/-!
Verification of the escalation decision engine and conversation state
transitions of the Lumino customer-support chatbot.

The decision engine is embedded from `lib/utils/escalation.ts`
(`checkExplicitRequest`, `checkNegativeSentiment`, `checkRepeatedQuery`,
`shouldEscalateToHuman`).  The escalate transition is embedded from the
version of `escalateConversation` that carries the Freshdesk integration
(idempotency guard, metadata merge, ticket correlation id) — the version the
Freshdesk webhook route depends on.  The webhook route is embedded from
`app/api/webhooks/freshdesk/route.ts` and the feedback endpoint from
`app/api/feedback/route.ts`.

Database reads are modelled as explicit fetch outcomes (`Option` — `none`
covers both a returned error and a thrown exception, which the source
uniformly absorbs by returning `false`), and database tables as association
lists inside an explicit state record, mutated by pure transition functions
that also emit a trace of external effects in program order.
-/

namespace CustomerSupport

/-! ### Decision engine (lib/utils/escalation.ts) -/

inductive EscalationReason
  | explicit_request
  | negative_sentiment
  | repeated_query
  | bot_failure
deriving DecidableEq, Repr

/-- The TS union values are strings; this renders the tag as stored in the DB. -/
def EscalationReason.toText : EscalationReason → String
  | .explicit_request => "explicit_request"
  | .negative_sentiment => "negative_sentiment"
  | .repeated_query => "repeated_query"
  | .bot_failure => "bot_failure"

structure EscalationTrigger where
  shouldEscalate : Bool
  reason : Option EscalationReason
  confidence : ℚ
deriving DecidableEq, Repr

/-- Keyword vocabulary of `checkExplicitRequest`. -/
def escalationKeywords : List String :=
  ["human", "agent", "person", "representative", "support",
   "speak to someone", "talk to someone", "real person",
   "customer service", "escalate", "manager", "supervisor",
   "connect me", "transfer me", "live agent", "live person"]

/-- JS `String.prototype.toLowerCase` (character-wise lowercasing). -/
def toLowerStr (s : String) : String :=
  String.mk (s.toList.map Char.toLower)

/-- JS `String.prototype.trim`: drop leading and trailing whitespace. -/
def trimChars (cs : List Char) : List Char :=
  ((cs.dropWhile Char.isWhitespace).reverse.dropWhile Char.isWhitespace).reverse

/-- JS `String.prototype.split(/\s+/)` up to empty chunks between
consecutive separators (which the callers discard via a length filter):
cut the character list at every whitespace character. -/
def splitWsAux (acc : List Char) : List Char → List (List Char)
  | [] => [acc.reverse]
  | c :: rest =>
    if c.isWhitespace then acc.reverse :: splitWsAux [] rest
    else splitWsAux (c :: acc) rest

def splitWs (s : String) : List String :=
  (splitWsAux [] s.toList).map String.mk

/-- JS `String.prototype.includes`: `pat` occurs contiguously in `s`. -/
def containsSubstr (s pat : String) : Bool :=
  (List.range (s.length + 1)).any fun i => pat.toList.isPrefixOf (s.toList.drop i)

/-- `checkExplicitRequest`: case-insensitive keyword containment. -/
def checkExplicitRequest (message : String) : Bool :=
  let lowerMessage := toLowerStr message
  escalationKeywords.any fun keyword => containsSubstr lowerMessage keyword

/-- One row of the `messages` table as seen by the two history evaluators:
role, raw content, and the sentiment label under `metadata.sentiment`. -/
structure StoredMsg where
  role : String
  content : String
  sentiment : Option String
deriving DecidableEq, Repr

/-- The messages-table read issued by the evaluators: given a conversation id
and a row limit, either the user's messages most-recent-first (`some`), or a
lookup failure (`none` — a returned error or a thrown exception). -/
structure MessageStore where
  fetch : String → Nat → Option (List StoredMsg)

/-- A store backed by a concrete in-memory history, most-recent-first; the
query filters `role = 'user'` and applies the row limit. -/
def storeOfHistory (history : List StoredMsg) : MessageStore :=
  ⟨fun _ limit => some ((history.filter fun m => m.role == "user").take limit)⟩

/-- `checkNegativeSentiment` applied to the outcome of its limit-3 fetch:
requires at least 2 rows, then counts rows whose sentiment label is
`negative` and fires only when the count reaches 3. -/
def checkNegativeSentiment (fetched : Option (List StoredMsg)) : Bool :=
  match fetched with
  | none => false
  | some recentMessages =>
    if recentMessages.length < 2 then false
    else
      let negativeCounts :=
        (recentMessages.filter fun msg => msg.sentiment == some "negative").length
      decide (negativeCounts ≥ 3)

/-- Normalization used by `checkRepeatedQuery`: lowercase, strip the
characters `?` `.` `!` `,`, trim. -/
def normalizeText (m : String) : String :=
  String.mk (trimChars ((toLowerStr m).toList.filter fun c =>
    !(c = '?' ∨ c = '.' ∨ c = '!' ∨ c = ',')))

/-- Tokens of a normalized message that survive the `w.length > 3` filter
(after splitting on whitespace). -/
def longTokens (s : String) : List String :=
  (splitWs s).filter fun w => decide (w.length > 3)

/-- Token-overlap ratio test of `checkRepeatedQuery`: shared long tokens over
the larger token count, compared against 0.8. -/
def similarityExceeds (currentWords msgWords : List String) : Bool :=
  let commonWords := currentWords.filter fun word => msgWords.contains word
  decide ((commonWords.length : ℚ) / (max currentWords.length msgWords.length : ℚ) > 0.8)

/-- `checkRepeatedQuery` applied to the outcome of its limit-6 fetch (which
includes the just-saved current message as its head, skipped by `slice(1)`).
Requires at least 4 rows and at least 3 long tokens in the current message;
fires on 2 exact normalized matches or 3 high-similarity messages. -/
def checkRepeatedQuery (fetched : Option (List StoredMsg)) (currentMessage : String) : Bool :=
  match fetched with
  | none => false
  | some recentMessages =>
    if recentMessages.length < 4 then false
    else
      let currentNormalized := normalizeText currentMessage
      let currentWords := longTokens currentNormalized
      if currentWords.length < 3 then false
      else
        let rest := recentMessages.drop 1
        let exactMatchCount :=
          (rest.filter fun msg => normalizeText msg.content == currentNormalized).length
        let highSimilarityCount :=
          (rest.filter fun msg =>
            normalizeText msg.content != currentNormalized &&
            similarityExceeds currentWords (longTokens (normalizeText msg.content))).length
        decide (exactMatchCount ≥ 2) || decide (highSimilarityCount ≥ 3)

/-- `shouldEscalateToHuman`: the three triggers in priority order, first
match short-circuits with its fixed confidence. -/
def shouldEscalateToHuman (store : MessageStore) (conversationId userMessage : String) :
    EscalationTrigger :=
  if checkExplicitRequest userMessage then
    ⟨true, some .explicit_request, 1⟩
  else if checkNegativeSentiment (store.fetch conversationId 3) then
    ⟨true, some .negative_sentiment, 0.9⟩
  else if checkRepeatedQuery (store.fetch conversationId 6) userMessage then
    ⟨true, some .repeated_query, 0.85⟩
  else
    ⟨false, none, 0⟩

/-! ### Conversation store and the escalate transition
(`escalateConversation`, Freshdesk-integrated version of
lib/utils/escalation.ts) -/

/-- A JSON metadata value as stored in the `metadata` column. -/
inductive MetaVal
  | str (s : String)
  | num (n : Nat)
deriving DecidableEq, Repr

/-- The free-form `metadata` map of a conversation or message row.  A key
bound to `none` is absent (JS `undefined` properties are dropped when the
object is serialized for the store). -/
def Metadata := String → Option MetaVal

instance : Inhabited Metadata := ⟨fun _ => none⟩

inductive ConvStatus
  | active
  | escalated
  | resolved
deriving DecidableEq, Repr

structure Conversation where
  sessionId : String
  status : ConvStatus
  sentiment : Option String
  metadata : Metadata

structure MsgRow where
  conversationId : String
  role : String
  content : String
  metadata : Metadata

/-- A `chat_analytics` row: `event_data` holds the reason and, for the
Freshdesk-integrated version, the ticket id. -/
structure AnalyticsRow where
  conversationId : String
  eventType : String
  reason : EscalationReason
  ticketId : Option Nat

/-- One dispatch of the internal support notification
(`sendInternalNotification`). -/
structure NotificationRecord where
  conversationId : String
  sessionId : String
  reason : EscalationReason
  ticketId : Option Nat

structure DbState where
  conversations : List (String × Conversation)
  messages : List MsgRow
  analytics : List AnalyticsRow
  notifications : List NotificationRecord

/-- External side effects of one run, in program order. -/
inductive Effect
  | createTicketAttempt (success : Bool)
  | updateConversationStatus (cid : String)
  | insertAnalytics (cid : String)
  | sendNotification (cid : String)
  | insertMessage (cid : String)
  | updateConversationResolved (cid : String)
deriving DecidableEq, Repr

def Effect.isTicketAttempt : Effect → Bool
  | .createTicketAttempt _ => true
  | _ => false

def Effect.isStatusUpdate : Effect → Bool
  | .updateConversationStatus _ => true
  | _ => false

def Effect.isNotify : Effect → Bool
  | .sendNotification _ => true
  | _ => false

/-- Outcome of the guarded `createFreshdeskTicket` call: skipped because the
integration is unconfigured, thrown and caught, or a created ticket id. -/
inductive TicketOutcome
  | notConfigured
  | failed
  | created (id : Nat)
deriving DecidableEq, Repr

def TicketOutcome.ticketId : TicketOutcome → Option Nat
  | .created t => some t
  | _ => none

def TicketOutcome.effects : TicketOutcome → List Effect
  | .notConfigured => []
  | .failed => [.createTicketAttempt false]
  | .created _ => [.createTicketAttempt true]

/-- `.eq('id', cid)` read via `.single()`. -/
def lookupConv (s : DbState) (cid : String) : Option Conversation :=
  s.conversations.lookup cid

/-- `.update(...).eq('id', cid)`: rewrite every row whose id matches. -/
def updateConvRow (cid : String) (f : Conversation → Conversation) :
    List (String × Conversation) → List (String × Conversation)
  | [] => []
  | (k, c) :: rest =>
    if k = cid then (k, f c) :: updateConvRow cid f rest
    else (k, c) :: updateConvRow cid f rest

/-- The metadata object written by the escalate transition: spread of the
existing metadata, then the five escalation keys (a `none` ticket id leaves
`freshdesk_ticket_id`/`freshdesk_ticket_url` absent, JS `undefined`). -/
def escalationMetadata (old : Metadata) (reason : EscalationReason)
    (now : String) (ticketId : Option Nat) (domain : String) : Metadata :=
  fun k =>
    if k = "escalation_reason" then some (.str reason.toText)
    else if k = "escalated_at" then some (.str now)
    else if k = "freshdesk_ticket_id" then ticketId.map .num
    else if k = "freshdesk_ticket_url" then
      ticketId.map fun t => .str ("https://" ++ domain ++ "/a/tickets/" ++ toString t)
    else if k = "communication_channel" then some (.str "chatbot_only")
    else old k

/-- The conversation update applied by the escalate transition. -/
def applyEscalation (reason : EscalationReason) (now : String)
    (ticketId : Option Nat) (domain : String) (c : Conversation) : Conversation :=
  { c with status := .escalated,
           metadata := escalationMetadata c.metadata reason now ticketId domain }

/-- `escalateConversation` (Freshdesk-integrated version): read the
conversation; return immediately if already escalated; otherwise attempt
ticket creation (its failure is caught), update the conversation row
(status + merged metadata), insert the analytics event, and — when the
conversation row was found — dispatch the internal notification.  Returns
the final state and the trace of effects in program order.  `now` is the
timestamp string, `domain` the Freshdesk domain. -/
def escalateConversation (outcome : TicketOutcome) (now domain : String)
    (cid : String) (reason : EscalationReason) (s : DbState) :
    DbState × List Effect :=
  match lookupConv s cid with
  | some existing =>
    if existing.status = .escalated then (s, [])
    else
      let ticketId := outcome.ticketId
      let s1 := { s with
        conversations := updateConvRow cid (applyEscalation reason now ticketId domain) s.conversations }
      let s2 := { s1 with
        analytics := s1.analytics ++ [AnalyticsRow.mk cid "escalated" reason ticketId] }
      let s3 := { s2 with
        notifications := s2.notifications ++ [NotificationRecord.mk cid existing.sessionId reason ticketId] }
      (s3, outcome.effects ++
        [.updateConversationStatus cid, .insertAnalytics cid, .sendNotification cid])
  | none =>
    -- row not found: the `existing?.status` guard does not fire, the ticket
    -- attempt and the (no-row) update and the analytics insert still run,
    -- but the notification is skipped (`if (existing)`)
    let ticketId := outcome.ticketId
    let s2 := { s with
      analytics := s.analytics ++ [AnalyticsRow.mk cid "escalated" reason ticketId] }
    (s2, outcome.effects ++ [.updateConversationStatus cid, .insertAnalytics cid])

/-! ### Agent reply ingestion (app/api/webhooks/freshdesk/route.ts) -/

/-- Postgres `metadata->>key`: the value rendered as text. -/
def metaText : Option MetaVal → Option String
  | none => none
  | some (.str s) => some s
  | some (.num n) => some (toString n)

/-- `/<br\s*\/?>/i` tail after `<b` `r`: whitespace, optional slash, `>`. -/
def chompBrClose : List Char → Option (List Char)
  | [] => none
  | '/' :: '>' :: rest => some rest
  | '>' :: rest => some rest
  | c :: rest => if c.isWhitespace then chompBrClose rest else none

/-- Global replacement of `/<br\s*\/?>/gi` by a newline (fuel-driven
left-to-right scan; the fuel is the input length, enough since every step
consumes at least one character). -/
def replaceBrAux : Nat → List Char → List Char
  | 0, cs => cs
  | _ + 1, [] => []
  | fuel + 1, '<' :: c1 :: c2 :: rest =>
    if c1.toLower = 'b' ∧ c2.toLower = 'r' then
      match chompBrClose rest with
      | some rest2 => '\n' :: replaceBrAux fuel rest2
      | none => '<' :: replaceBrAux fuel (c1 :: c2 :: rest)
    else '<' :: replaceBrAux fuel (c1 :: c2 :: rest)
  | fuel + 1, c :: rest => c :: replaceBrAux fuel rest

/-- Global replacement of `/<\/p>/gi` by a newline. -/
def replacePClose : List Char → List Char
  | '<' :: '/' :: c :: '>' :: rest =>
    if c.toLower = 'p' then '\n' :: replacePClose rest
    else '<' :: replacePClose ('/' :: c :: '>' :: rest)
  | c :: rest => c :: replacePClose rest
  | [] => []

/-- One `[^>]+>` match after a `<`: at least one non-`>` character, then `>`. -/
def dropTagClose : List Char → Option (List Char)
  | [] => none
  | '>' :: rest => some rest
  | _ :: rest => dropTagClose rest

def dropTagRest : List Char → Option (List Char)
  | [] => none
  | '>' :: _ => none
  | _ :: rest => dropTagClose rest

/-- Global removal of `/<[^>]+>/g` (fuel-driven left-to-right scan). -/
def stripTagsAux : Nat → List Char → List Char
  | 0, cs => cs
  | _ + 1, [] => []
  | fuel + 1, '<' :: rest =>
    (match dropTagRest rest with
     | some rest2 => stripTagsAux fuel rest2
     | none => '<' :: stripTagsAux fuel rest)
  | fuel + 1, c :: rest => c :: stripTagsAux fuel rest

/-- The HTML-entity replacements of the webhook, in source order. -/
def replaceEntities (s : String) : String :=
  ((((s.replace "&nbsp;" " ").replace "&amp;" "&").replace "&lt;" "<").replace
    "&gt;" ">").replace "&quot;" "\""

/-- `cleanReply`: strip the Freshdesk HTML down to plain text — `<br>` and
`</p>` to newlines, remaining tags removed, entities decoded, trimmed. -/
def cleanAgentReply (reply : String) : String :=
  let afterBr := replaceBrAux reply.toList.length reply.toList
  let afterP := replacePClose afterBr
  let afterTags := stripTagsAux afterP.length afterP
  String.mk (trimChars (replaceEntities (String.mk afterTags)).toList)

/-- Metadata of the stored agent message. -/
def agentMsgMetadata (agentName : String) (ticketId : Nat) (now : String) : Metadata :=
  fun k =>
    if k = "agent_name" then some (.str agentName)
    else if k = "freshdesk_ticket_id" then some (.num ticketId)
    else if k = "source" then some (.str "freshdesk")
    else if k = "received_at" then some (.str now)
    else none

/-- `.filter('metadata->>freshdesk_ticket_id', 'eq', String(ticketId))`. -/
def webhookTicketFilter (ticketId : Nat) (rows : List (String × Conversation)) :
    List (String × Conversation) :=
  rows.filter fun kv => metaText (kv.2.metadata "freshdesk_ticket_id") == some (toString ticketId)

/-- The metadata object written by the resolution branch of the webhook. -/
def resolvedMetadata (old : Metadata) (now : String) : Metadata :=
  fun k =>
    if k = "resolved_at" then some (.str now)
    else if k = "resolved_via" then some (.str "freshdesk")
    else old k

/-- The conversation update applied by the resolution branch of the webhook
(the metadata spread uses the fetched conversation's metadata). -/
def applyResolution (fetchedMeta : Metadata) (now : String) (c : Conversation) : Conversation :=
  { c with status := .resolved, metadata := resolvedMetadata fetchedMeta now }

inductive WebhookResponse
  | badRequest
  | notFound
  | ok
deriving DecidableEq, Repr

/-- The Freshdesk ticket-status values the webhook maps to resolution. -/
def resolvedStatusValues : List String := ["Resolved", "Closed", "4", "5"]

/-- The webhook `POST`, modelled from its required-field guard onward (the
secret check and the Freshdesk API backfill of an empty reply body are
upstream input resolution; `ticketId`/`agentReply` here are their results).
JS falsiness: an absent or zero ticket id and an absent or empty reply body
fail the guard.  Lookup by stored ticket-correlation id; not found reports
404 with no mutation; otherwise the cleaned reply is appended as an agent
message, and a resolution status flips the conversation to resolved. -/
def freshdeskWebhook (ticketId : Option Nat) (agentReply : Option String)
    (agentName : String) (ticketStatus : Option String) (isResolvedFlag : Bool)
    (now : String) (s : DbState) : WebhookResponse × DbState × List Effect :=
  match ticketId, agentReply with
  | some tid, some reply =>
    if tid = 0 ∨ reply = "" then (.badRequest, s, [])
    else
      let cleanReply := cleanAgentReply reply
      match webhookTicketFilter tid s.conversations with
      | [] => (.notFound, s, [])
      | conversation :: _ =>
        let s1 := { s with
          messages := s.messages ++
            [MsgRow.mk conversation.1 "agent" cleanReply (agentMsgMetadata agentName tid now)] }
        let isResolvedStatus :=
          (match ticketStatus with
           | some st => resolvedStatusValues.contains st
           | none => false) || isResolvedFlag
        if isResolvedStatus then
          let s2 := { s1 with
            conversations := updateConvRow conversation.1
              (applyResolution conversation.2.metadata now) s1.conversations }
          (.ok, s2, [.insertMessage conversation.1, .updateConversationResolved conversation.1])
        else (.ok, s1, [.insertMessage conversation.1])
  | _, _ => (.badRequest, s, [])

/-! ### Feedback endpoint (app/api/feedback/route.ts) -/

structure FeedbackRow where
  id : Nat
  messageId : String
  rating : Int
  feedbackText : Option String
deriving DecidableEq, Repr

structure FeedbackState where
  rows : List FeedbackRow
  nextId : Nat
deriving DecidableEq, Repr

inductive FeedbackResponse
  | badRequest
  | ok
deriving DecidableEq, Repr

/-- `feedbackText || null`: the empty string is falsy and becomes null. -/
def normFeedbackText : Option String → Option String
  | some t => if t = "" then none else some t
  | none => none

/-- The feedback `POST`: reject a missing (or JS-falsy) `messageId` or
`rating`, then any rating other than exactly `1` or `-1`, with 400 and no
write; otherwise update the existing feedback row for the message id
(`maybeSingle` = first match) or insert a new one. -/
def feedbackPost (messageId : Option String) (rating : Option Int)
    (feedbackText : Option String) (s : FeedbackState) :
    FeedbackResponse × FeedbackState :=
  match messageId, rating with
  | some mid, some r =>
    if mid = "" ∨ r = 0 then (.badRequest, s)
    else if r ≠ 1 ∧ r ≠ -1 then (.badRequest, s)
    else
      match s.rows.find? fun row => row.messageId == mid with
      | some existing =>
        (.ok, { s with rows := s.rows.map fun row =>
          if row.id = existing.id then
            { row with rating := r, feedbackText := normFeedbackText feedbackText }
          else row })
      | none =>
        (.ok, { rows := s.rows ++ [FeedbackRow.mk s.nextId mid r (normFeedbackText feedbackText)],
                nextId := s.nextId + 1 })
  | _, _ => (.badRequest, s)

/-! ### Helper lemmas -/

theorem isPrefixOf_append_self (l1 l2 : List Char) : l1.isPrefixOf (l1 ++ l2) = true := by
  induction l1 with
  | nil => simp [List.isPrefixOf]
  | cons a as ih => simp [List.isPrefixOf, ih]

/-- A pattern that occurs at some position of `s` is found by
`containsSubstr`. -/
theorem containsSubstr_of_parts (s pat : String) (pre post : List Char)
    (h : s.toList = pre ++ pat.toList ++ post) : containsSubstr s pat = true := by
  unfold containsSubstr
  rw [List.any_eq_true]
  refine ⟨pre.length, List.mem_range.mpr ?_, ?_⟩
  · have hlen : s.toList.length = pre.length + pat.toList.length + post.length := by
      rw [h]; simp; omega
    have hsl : s.length = s.toList.length := rfl
    omega
  · rw [h, List.append_assoc, List.drop_left]
    exact isPrefixOf_append_self _ _

/-! ### C1, C3, C4, C5, C8 — decision-engine claims -/

/-- C1: for every conversation id and message text, `shouldEscalateToHuman`
evaluates its triggers in the fixed priority order explicit request,
negative sentiment, repeated query; the first matching trigger
short-circuits and fully determines the result (so at most one reason is
reported), with the fixed confidences 1.0, 0.9 and 0.85, and no match
yields `shouldEscalate = false` with confidence 0. -/
theorem escalation_priority_order (store : MessageStore) (cid msg : String) :
    (checkExplicitRequest msg = true →
      shouldEscalateToHuman store cid msg = ⟨true, some .explicit_request, 1⟩) ∧
    (checkExplicitRequest msg = false →
      checkNegativeSentiment (store.fetch cid 3) = true →
      shouldEscalateToHuman store cid msg = ⟨true, some .negative_sentiment, 0.9⟩) ∧
    (checkExplicitRequest msg = false →
      checkNegativeSentiment (store.fetch cid 3) = false →
      checkRepeatedQuery (store.fetch cid 6) msg = true →
      shouldEscalateToHuman store cid msg = ⟨true, some .repeated_query, 0.85⟩) ∧
    (checkExplicitRequest msg = false →
      checkNegativeSentiment (store.fetch cid 3) = false →
      checkRepeatedQuery (store.fetch cid 6) msg = false →
      shouldEscalateToHuman store cid msg = ⟨false, none, 0⟩) := by
  refine ⟨fun h1 => ?_, fun h1 h2 => ?_, fun h1 h2 h3 => ?_, fun h1 h2 h3 => ?_⟩
  · simp [shouldEscalateToHuman, h1]
  · simp [shouldEscalateToHuman, h1, h2]
  · simp [shouldEscalateToHuman, h1, h2, h3]
  · simp [shouldEscalateToHuman, h1, h2, h3]

theorem escalation_priority_order_witness :
    shouldEscalateToHuman (storeOfHistory []) "c1" "I need to speak to a HUMAN" =
      ⟨true, some .explicit_request, 1⟩ :=
  (escalation_priority_order (storeOfHistory []) "c1" "I need to speak to a HUMAN").1 (by decide)

/-- C5: any message containing an explicit-request keyword after
lowercasing, at any position, makes the engine return
`explicit_request` with confidence 1.0, regardless of the history store. -/
theorem explicit_request_regardless_of_history (store : MessageStore) (cid msg : String)
    (h : ∃ k ∈ escalationKeywords, ∃ pre post : List Char,
      (toLowerStr msg).toList = pre ++ k.toList ++ post) :
    shouldEscalateToHuman store cid msg = ⟨true, some .explicit_request, 1⟩ := by
  obtain ⟨k, hk, pre, post, hs⟩ := h
  have hc : checkExplicitRequest msg = true := by
    simp only [checkExplicitRequest, List.any_eq_true]
    exact ⟨k, hk, containsSubstr_of_parts _ _ pre post hs⟩
  simp [shouldEscalateToHuman, hc]

theorem explicit_request_regardless_of_history_witness :
    shouldEscalateToHuman (storeOfHistory []) "c1" "Please ESCALATE this" =
      ⟨true, some .explicit_request, 1⟩ :=
  explicit_request_regardless_of_history _ _ _
    ⟨"escalate", by decide, "please ".toList, " this".toList, by decide⟩

/-- C8: the engine is a total function; a history-lookup failure (error or
thrown exception, `none`) is absorbed by each history evaluator as "no
match", so with both fetches failing and no explicit-request phrase the
engine returns no escalation — never an exception. -/
theorem engine_absorbs_lookup_failures (store : MessageStore) (cid msg : String)
    (h3 : store.fetch cid 3 = none) (h6 : store.fetch cid 6 = none) :
    checkNegativeSentiment (store.fetch cid 3) = false ∧
    checkRepeatedQuery (store.fetch cid 6) msg = false ∧
    (checkExplicitRequest msg = false →
      shouldEscalateToHuman store cid msg = ⟨false, none, 0⟩) := by
  refine ⟨by rw [h3]; rfl, by rw [h6]; rfl, fun he => ?_⟩
  simp [shouldEscalateToHuman, he, h3, h6, checkNegativeSentiment, checkRepeatedQuery]

theorem engine_absorbs_lookup_failures_witness :
    checkNegativeSentiment ((MessageStore.mk fun _ _ => none).fetch "c1" 3) = false ∧
    checkRepeatedQuery ((MessageStore.mk fun _ _ => none).fetch "c1" 6) "thanks" = false ∧
    shouldEscalateToHuman ⟨fun _ _ => none⟩ "c1" "thanks" = ⟨false, none, 0⟩ :=
  let w := engine_absorbs_lookup_failures ⟨fun _ _ => none⟩ "c1" "thanks" rfl rfl
  ⟨w.1, w.2.1, w.2.2 (by decide)⟩

/-- C3: the negative-sentiment trigger fires exactly when the limit-3 window
of prior user messages has at least 2 entries and at least 3 of them are
labeled negative; with exactly 3 prior user messages all negative and no
explicit-request phrase the engine returns `negative_sentiment` with
confidence 0.9, and with only 2 of the last 3 negative the trigger does not
fire. -/
theorem negative_sentiment_trigger_exact :
    (∀ (history : List StoredMsg) (cid : String),
      checkNegativeSentiment ((storeOfHistory history).fetch cid 3) = true ↔
        (2 ≤ ((history.filter fun m => m.role == "user").take 3).length ∧
         3 ≤ (((history.filter fun m => m.role == "user").take 3).filter
               fun m => m.sentiment == some "negative").length)) ∧
    (∀ (m1 m2 m3 : StoredMsg) (cid msg : String),
      m1.role = "user" → m2.role = "user" → m3.role = "user" →
      m1.sentiment = some "negative" → m2.sentiment = some "negative" →
      m3.sentiment = some "negative" →
      checkExplicitRequest msg = false →
      shouldEscalateToHuman (storeOfHistory [m1, m2, m3]) cid msg =
        ⟨true, some .negative_sentiment, 0.9⟩) ∧
    (∀ (m1 m2 m3 : StoredMsg) (cid : String),
      m1.role = "user" → m2.role = "user" → m3.role = "user" →
      m1.sentiment = some "negative" → m2.sentiment = some "negative" →
      m3.sentiment ≠ some "negative" →
      checkNegativeSentiment ((storeOfHistory [m1, m2, m3]).fetch cid 3) = false) := by
  refine ⟨fun history cid => ?_,
          fun m1 m2 m3 cid msg h1 h2 h3 hs1 hs2 hs3 he => ?_,
          fun m1 m2 m3 cid h1 h2 h3 hs1 hs2 hs3 => ?_⟩
  · simp only [checkNegativeSentiment, storeOfHistory]
    by_cases hw : ((history.filter fun m => m.role == "user").take 3).length < 2
    · simp [if_pos hw]
    · simp [if_neg hw]
  · have hneg : checkNegativeSentiment ((storeOfHistory [m1, m2, m3]).fetch cid 3) = true := by
      simp [checkNegativeSentiment, storeOfHistory, h1, h2, h3, hs1, hs2, hs3]
    simp [shouldEscalateToHuman, he, hneg]
  · have hs3f : (m3.sentiment == some "negative") = false := beq_eq_false_iff_ne.mpr hs3
    simp [checkNegativeSentiment, storeOfHistory, h1, h2, h3, hs1, hs2, hs3f]

theorem negative_sentiment_trigger_exact_witness :
    shouldEscalateToHuman
      (storeOfHistory [⟨"user", "this is useless", some "negative"⟩,
                       ⟨"user", "still broken", some "negative"⟩,
                       ⟨"user", "it does not work", some "negative"⟩])
      "c1" "nothing works at all" = ⟨true, some .negative_sentiment, 0.9⟩ :=
  negative_sentiment_trigger_exact.2.1 _ _ _ "c1" "nothing works at all"
    rfl rfl rfl rfl rfl rfl (by decide)

/-- The spec's end-to-end scenario C history, most-recent-first, as the
repeated-query fetch sees it (the current message is already saved and is
the head row). -/
def resetHubHistory : List StoredMsg :=
  [⟨"user", "how do I reset my hub?", none⟩,
   ⟨"user", "how do I reset my hub?", none⟩,
   ⟨"user", "some other question", none⟩,
   ⟨"user", "how do I reset my hub?", none⟩,
   ⟨"user", "how do I reset my hub?", none⟩]

/-- C4 counterexample: on the spec's scenario C input the engine does NOT
escalate with `repeated_query`. -/
theorem repeated_query_scenario_counterexample :
    shouldEscalateToHuman (storeOfHistory resetHubHistory) "c1" "how do I reset my hub?" ≠
      ⟨true, some .repeated_query, 0.85⟩ := by decide

/-- C4 amended: on the scenario C input the current message normalizes to
only one token longer than 3 characters — fewer than the 3 the eligibility
guard requires — so the repeated-query check reports no match and the engine
returns no escalation with confidence 0. -/
theorem repeated_query_scenario_amended :
    (longTokens (normalizeText "how do I reset my hub?")).length = 1 ∧
    checkRepeatedQuery ((storeOfHistory resetHubHistory).fetch "c1" 6)
      "how do I reset my hub?" = false ∧
    shouldEscalateToHuman (storeOfHistory resetHubHistory) "c1" "how do I reset my hub?" =
      ⟨false, none, 0⟩ := by decide

/-! ### Association-list lemmas for the conversations table -/

theorem lookup_updateConvRow_self (cid : String) (f : Conversation → Conversation)
    (rows : List (String × Conversation)) :
    (updateConvRow cid f rows).lookup cid = (rows.lookup cid).map f := by
  induction rows with
  | nil => rfl
  | cons kv rest ih =>
    obtain ⟨k, c⟩ := kv
    by_cases hk : k = cid
    · subst hk
      simp [updateConvRow, List.lookup]
    · have hbeq : (cid == k) = false := beq_eq_false_iff_ne.mpr (Ne.symm hk)
      simp [updateConvRow, hk, List.lookup, hbeq, ih]

theorem lookup_updateConvRow_other (cid k : String) (f : Conversation → Conversation)
    (rows : List (String × Conversation)) (hk : k ≠ cid) :
    (updateConvRow cid f rows).lookup k = rows.lookup k := by
  induction rows with
  | nil => rfl
  | cons kv rest ih =>
    obtain ⟨k2, c⟩ := kv
    by_cases h2 : k2 = cid
    · subst h2
      have hbeq : (k == k2) = false := beq_eq_false_iff_ne.mpr hk
      simp [updateConvRow, List.lookup, hbeq, ih]
    · cases hkk : (k == k2) with
      | true => simp [updateConvRow, h2, List.lookup, hkk]
      | false => simp [updateConvRow, h2, List.lookup, hkk, ih]

theorem lookupConv_unfold (s : DbState) (cid : String) :
    lookupConv s cid = s.conversations.lookup cid := rfl

/-- The escalated conversation row after a non-guarded run. -/
theorem lookupConv_after_escalation (outcome : TicketOutcome) (now domain cid : String)
    (reason : EscalationReason) (s : DbState) (conv : Conversation)
    (hfound : lookupConv s cid = some conv) (hne : conv.status ≠ .escalated) :
    lookupConv (escalateConversation outcome now domain cid reason s).1 cid =
      some (applyEscalation reason now outcome.ticketId domain conv) := by
  have hf : s.conversations.lookup cid = some conv := hfound
  simp [escalateConversation, lookupConv, hf, hne, lookup_updateConvRow_self]

/-! ### C2 — idempotency of the escalate transition -/

/-- C2: invoking `escalateConversation` on a conversation already in status
`escalated` returns immediately — unchanged state, no effects, no
notification; invoking it on a not-yet-escalated conversation dispatches
exactly one notification, and an immediately repeated invocation is a no-op,
so two successive calls dispatch exactly one notification in total. -/
theorem escalateConversation_idempotent (outcome outcome2 : TicketOutcome)
    (now now2 domain domain2 cid : String) (reason reason2 : EscalationReason)
    (s : DbState) (conv : Conversation)
    (hfound : lookupConv s cid = some conv) :
    (conv.status = .escalated →
      escalateConversation outcome now domain cid reason s = (s, [])) ∧
    (conv.status ≠ .escalated →
      ((escalateConversation outcome now domain cid reason s).2.filter
        Effect.isNotify).length = 1 ∧
      (escalateConversation outcome now domain cid reason s).1.notifications.length =
        s.notifications.length + 1 ∧
      escalateConversation outcome2 now2 domain2 cid reason2
        (escalateConversation outcome now domain cid reason s).1 =
        ((escalateConversation outcome now domain cid reason s).1, [])) := by
  constructor
  · intro hesc
    simp [escalateConversation, hfound, hesc]
  · intro hne
    refine ⟨?_, ?_, ?_⟩
    · cases outcome <;>
        simp [escalateConversation, hfound, hne, TicketOutcome.effects, Effect.isNotify]
    · simp [escalateConversation, hfound, hne]
    · have hf2 : (escalateConversation outcome now domain cid reason
          s).1.conversations.lookup cid =
          some (applyEscalation reason now outcome.ticketId domain conv) :=
        lookupConv_after_escalation outcome now domain cid reason s conv hfound hne
      have hst : (applyEscalation reason now outcome.ticketId domain conv).status =
          ConvStatus.escalated := rfl
      generalize hX : (escalateConversation outcome now domain cid reason s).1 = X at hf2 ⊢
      simp [escalateConversation, lookupConv, hf2, hst]

def sampleMeta : Metadata := fun _ => none

def sampleConv : Conversation := ⟨"sess1", .active, none, sampleMeta⟩

def sampleState : DbState := ⟨[("c1", sampleConv)], [], [], []⟩

theorem escalateConversation_idempotent_witness :
    ((escalateConversation .notConfigured "t1" "fd" "c1" .explicit_request
        sampleState).2.filter Effect.isNotify).length = 1 ∧
    (escalateConversation .notConfigured "t1" "fd" "c1" .explicit_request
        sampleState).1.notifications.length = sampleState.notifications.length + 1 ∧
    escalateConversation .notConfigured "t2" "fd" "c1" .negative_sentiment
        (escalateConversation .notConfigured "t1" "fd" "c1" .explicit_request
          sampleState).1 =
      ((escalateConversation .notConfigured "t1" "fd" "c1" .explicit_request
          sampleState).1, []) :=
  (escalateConversation_idempotent .notConfigured .notConfigured "t1" "t2" "fd" "fd"
    "c1" .explicit_request .negative_sentiment sampleState sampleConv rfl).2 (by decide)

/-! ### C6 — effect and frame of the escalate transition -/

/-- C6: a non-guarded escalate run sets the conversation's status to
`escalated`, stamps `escalated_at` and the reason into its metadata while
preserving every pre-existing metadata key outside the five keys it writes,
leaves the conversation's other fields and every other conversation and the
messages table unchanged, and appends one analytics event recording the
reason. -/
theorem escalateConversation_frame (outcome : TicketOutcome) (now domain cid : String)
    (reason : EscalationReason) (s : DbState) (conv : Conversation)
    (hfound : lookupConv s cid = some conv) (hne : conv.status ≠ .escalated) :
    ∀ s2, s2 = (escalateConversation outcome now domain cid reason s).1 →
    ∃ conv2, lookupConv s2 cid = some conv2 ∧
      conv2.status = .escalated ∧
      conv2.metadata "escalated_at" = some (.str now) ∧
      conv2.metadata "escalation_reason" = some (.str reason.toText) ∧
      (∀ k, k ∉ ["escalation_reason", "escalated_at", "freshdesk_ticket_id",
                 "freshdesk_ticket_url", "communication_channel"] →
        conv2.metadata k = conv.metadata k) ∧
      conv2.sessionId = conv.sessionId ∧
      conv2.sentiment = conv.sentiment ∧
      s2.analytics = s.analytics ++ [AnalyticsRow.mk cid "escalated" reason outcome.ticketId] ∧
      s2.messages = s.messages ∧
      (∀ k2, k2 ≠ cid → lookupConv s2 k2 = lookupConv s k2) := by
  rintro s2 rfl
  refine ⟨applyEscalation reason now outcome.ticketId domain conv,
    lookupConv_after_escalation outcome now domain cid reason s conv hfound hne,
    rfl, rfl, rfl, ?_, rfl, rfl, ?_, ?_, ?_⟩
  · intro k hk
    simp only [List.mem_cons, List.mem_singleton, not_or] at hk
    obtain ⟨h1, h2, h3, h4, h5⟩ := hk
    simp [applyEscalation, escalationMetadata, h1, h2, h3, h4, h5]
  · simp [escalateConversation, hfound, hne]
  · simp [escalateConversation, hfound, hne]
  · intro k2 hk2
    have hf : s.conversations.lookup cid = some conv := hfound
    simp [escalateConversation, lookupConv, hf, hne,
      lookup_updateConvRow_other cid k2 _ _ hk2]

theorem escalateConversation_frame_witness :
    ∃ conv2,
      lookupConv (escalateConversation (.created 5) "t1" "fd" "c1" .repeated_query
          sampleState).1 "c1" = some conv2 ∧
      conv2.status = .escalated ∧
      conv2.metadata "escalated_at" = some (.str "t1") ∧
      conv2.metadata "escalation_reason" = some (.str EscalationReason.repeated_query.toText) ∧
      (∀ k, k ∉ ["escalation_reason", "escalated_at", "freshdesk_ticket_id",
                 "freshdesk_ticket_url", "communication_channel"] →
        conv2.metadata k = sampleConv.metadata k) ∧
      conv2.sessionId = sampleConv.sessionId ∧
      conv2.sentiment = sampleConv.sentiment ∧
      (escalateConversation (.created 5) "t1" "fd" "c1" .repeated_query
          sampleState).1.analytics =
        sampleState.analytics ++
          [AnalyticsRow.mk "c1" "escalated" .repeated_query (TicketOutcome.created 5).ticketId] ∧
      (escalateConversation (.created 5) "t1" "fd" "c1" .repeated_query
          sampleState).1.messages = sampleState.messages ∧
      (∀ k2, k2 ≠ "c1" →
        lookupConv (escalateConversation (.created 5) "t1" "fd" "c1" .repeated_query
          sampleState).1 k2 = lookupConv sampleState k2) :=
  escalateConversation_frame (.created 5) "t1" "fd" "c1" .repeated_query
    sampleState sampleConv rfl (by decide) _ rfl

/-! ### C7 — effect ordering of the escalate transition -/

/-- C7 counterexample: in a concrete non-guarded run the ticket-creation
side effect fires BEFORE the status mutation, so the status change is not
durable before all Notifier side effects — the claimed ordering
(status before ticket creation) is false on this run. -/
theorem ticket_before_status_counterexample :
    (escalateConversation (.created 77) "t0" "fd" "c1" .explicit_request sampleState).2 =
      [.createTicketAttempt true, .updateConversationStatus "c1", .insertAnalytics "c1",
       .sendNotification "c1"] ∧
    (escalateConversation (.created 77) "t0" "fd" "c1" .explicit_request
      sampleState).2.findIdx Effect.isTicketAttempt = 0 ∧
    (escalateConversation (.created 77) "t0" "fd" "c1" .explicit_request
      sampleState).2.findIdx Effect.isStatusUpdate = 1 ∧
    ¬ ((escalateConversation (.created 77) "t0" "fd" "c1" .explicit_request
        sampleState).2.findIdx Effect.isStatusUpdate <
       (escalateConversation (.created 77) "t0" "fd" "c1" .explicit_request
        sampleState).2.findIdx Effect.isTicketAttempt) := by decide

/-- C7 amended: in every non-guarded run the status mutation precedes the
notification email, and a ticket-creation attempt (when the integration is
configured) precedes the status mutation; if ticket creation fails the
escalation still goes through — the conversation ends up escalated with no
ticket id recorded — the status change is not rolled back. -/
theorem escalation_effect_order_amended (outcome : TicketOutcome) (now domain cid : String)
    (reason : EscalationReason) (s : DbState) (conv : Conversation)
    (hfound : lookupConv s cid = some conv) (hne : conv.status ≠ .escalated) :
    ((escalateConversation outcome now domain cid reason s).2.findIdx Effect.isStatusUpdate <
      (escalateConversation outcome now domain cid reason s).2.findIdx Effect.isNotify) ∧
    (outcome ≠ .notConfigured →
      (escalateConversation outcome now domain cid reason s).2.findIdx Effect.isTicketAttempt <
        (escalateConversation outcome now domain cid reason s).2.findIdx Effect.isStatusUpdate) ∧
    (outcome = .failed →
      ∃ conv2,
        lookupConv (escalateConversation outcome now domain cid reason s).1 cid = some conv2 ∧
        conv2.status = .escalated ∧
        conv2.metadata "freshdesk_ticket_id" = none) := by
  refine ⟨?_, ?_, ?_⟩
  · cases outcome <;>
      simp [escalateConversation, hfound, hne, TicketOutcome.effects, List.findIdx_cons,
        Effect.isStatusUpdate, Effect.isNotify, Effect.isTicketAttempt]
  · intro hout
    cases outcome with
    | notConfigured => exact absurd rfl hout
    | failed =>
      simp [escalateConversation, hfound, hne, TicketOutcome.effects, List.findIdx_cons,
        Effect.isStatusUpdate, Effect.isTicketAttempt]
    | created t =>
      simp [escalateConversation, hfound, hne, TicketOutcome.effects, List.findIdx_cons,
        Effect.isStatusUpdate, Effect.isTicketAttempt]
  · rintro rfl
    exact ⟨applyEscalation reason now TicketOutcome.failed.ticketId domain conv,
      lookupConv_after_escalation _ now domain cid reason s conv hfound hne, rfl, rfl⟩

theorem escalation_effect_order_amended_witness :
    ((escalateConversation .failed "t1" "fd" "c1" .explicit_request sampleState).2.findIdx
        Effect.isStatusUpdate <
      (escalateConversation .failed "t1" "fd" "c1" .explicit_request sampleState).2.findIdx
        Effect.isNotify) ∧
    ((escalateConversation .failed "t1" "fd" "c1" .explicit_request sampleState).2.findIdx
        Effect.isTicketAttempt <
      (escalateConversation .failed "t1" "fd" "c1" .explicit_request sampleState).2.findIdx
        Effect.isStatusUpdate) ∧
    (∃ conv2,
      lookupConv (escalateConversation .failed "t1" "fd" "c1" .explicit_request
        sampleState).1 "c1" = some conv2 ∧
      conv2.status = .escalated ∧
      conv2.metadata "freshdesk_ticket_id" = none) :=
  let w := escalation_effect_order_amended .failed "t1" "fd" "c1" .explicit_request
    sampleState sampleConv rfl (by decide)
  ⟨w.1, w.2.1 (by decide), w.2.2 rfl⟩

/-! ### C9 — ticket-correlation round trip -/

theorem updateConvRow_of_not_mem (cid : String) (f : Conversation → Conversation)
    (rows : List (String × Conversation)) (h : cid ∉ rows.map Prod.fst) :
    updateConvRow cid f rows = rows := by
  induction rows with
  | nil => rfl
  | cons kv rest ih =>
    obtain ⟨k, c⟩ := kv
    simp only [List.map_cons, List.mem_cons, not_or] at h
    obtain ⟨h1, h2⟩ := h
    have hk : k ≠ cid := fun hs => h1 hs.symm
    simp [updateConvRow, hk, ih h2]

theorem webhookTicketFilter_eq_nil (t : Nat) (rows : List (String × Conversation))
    (h : ∀ kv ∈ rows, metaText (kv.2.metadata "freshdesk_ticket_id") ≠ some (toString t)) :
    webhookTicketFilter t rows = [] := by
  unfold webhookTicketFilter
  rw [List.filter_eq_nil_iff]
  intro kv hkv
  simp only [beq_iff_eq]
  exact h kv hkv

theorem webhookTicketFilter_cons (t : Nat) (kv : String × Conversation)
    (rows : List (String × Conversation)) :
    webhookTicketFilter t (kv :: rows) =
      if (metaText (kv.2.metadata "freshdesk_ticket_id") == some (toString t)) = true
      then kv :: webhookTicketFilter t rows else webhookTicketFilter t rows := by
  simp [webhookTicketFilter, List.filter_cons]

theorem escalationMetadata_ticket_id (old : Metadata) (reason : EscalationReason)
    (now : String) (tid : Option Nat) (domain : String) :
    escalationMetadata old reason now tid domain "freshdesk_ticket_id" = tid.map .num := rfl

/-- After escalating with a created ticket id that no conversation carried
before, the webhook's correlation filter finds exactly the escalated
conversation. -/
theorem webhookTicketFilter_after_escalation (t : Nat) (reason : EscalationReason)
    (now domain cid : String) (rows : List (String × Conversation)) (conv : Conversation)
    (hnd : (rows.map Prod.fst).Nodup)
    (hl : rows.lookup cid = some conv)
    (hu : ∀ kv ∈ rows, metaText (kv.2.metadata "freshdesk_ticket_id") ≠ some (toString t)) :
    webhookTicketFilter t
        (updateConvRow cid (applyEscalation reason now (some t) domain) rows) =
      [(cid, applyEscalation reason now (some t) domain conv)] := by
  induction rows with
  | nil => simp [List.lookup] at hl
  | cons kv rest ih =>
    obtain ⟨k, c⟩ := kv
    simp only [List.map_cons, List.nodup_cons] at hnd
    obtain ⟨hknotin, hndrest⟩ := hnd
    by_cases hk : k = cid
    · subst hk
      have hc : c = conv := by
        have hh : List.lookup k ((k, c) :: rest) = some c := by simp [List.lookup]
        rw [hh] at hl
        exact Option.some.inj hl
      subst hc
      have hup : updateConvRow k (applyEscalation reason now (some t) domain) rest = rest :=
        updateConvRow_of_not_mem k _ rest hknotin
      have hfil : webhookTicketFilter t rest = [] :=
        webhookTicketFilter_eq_nil t rest fun kv hkv => hu kv (List.mem_cons_of_mem _ hkv)
      simp [updateConvRow, webhookTicketFilter_cons, hup, hfil,
        applyEscalation, escalationMetadata_ticket_id, metaText]
    · have hbeq : (cid == k) = false := beq_eq_false_iff_ne.mpr (Ne.symm hk)
      have hl2 : rest.lookup cid = some conv := by
        simpa [List.lookup, hbeq] using hl
      have ih2 := ih hndrest hl2 fun kv hkv => hu kv (List.mem_cons_of_mem _ hkv)
      have hheadb : (metaText (c.metadata "freshdesk_ticket_id") == some (toString t)) =
          false :=
        beq_eq_false_iff_ne.mpr (hu (k, c) (List.mem_cons_self _ _))
      simp [updateConvRow, hk, webhookTicketFilter_cons, hheadb, ih2]

/-- C9: after a non-guarded escalation that created ticket `t` (with no
conversation previously carrying `t`), the webhook lookup for `t` finds
exactly the escalated conversation, and the webhook run appends the agent
reply to exactly that conversation; for a ticket id matching no
conversation the webhook reports NotFound and performs no mutation — no
orphan message is created. -/
theorem ticket_roundtrip_and_notfound (t : Nat) (reason : EscalationReason)
    (now now2 domain cid : String) (s : DbState) (conv : Conversation)
    (reply agentName : String) (ticketStatus : Option String) (isres : Bool)
    (ht : t ≠ 0) (hreply : reply ≠ "")
    (hnd : (s.conversations.map Prod.fst).Nodup)
    (hfound : lookupConv s cid = some conv)
    (hne : conv.status ≠ .escalated)
    (hu : ∀ kv ∈ s.conversations,
      metaText (kv.2.metadata "freshdesk_ticket_id") ≠ some (toString t)) :
    (webhookTicketFilter t
        (escalateConversation (.created t) now domain cid reason s).1.conversations =
      [(cid, applyEscalation reason now (some t) domain conv)]) ∧
    ((freshdeskWebhook (some t) (some reply) agentName ticketStatus isres now2
        (escalateConversation (.created t) now domain cid reason s).1).1 = .ok) ∧
    ((freshdeskWebhook (some t) (some reply) agentName ticketStatus isres now2
        (escalateConversation (.created t) now domain cid reason s).1).2.1.messages =
      (escalateConversation (.created t) now domain cid reason s).1.messages ++
        [MsgRow.mk cid "agent" (cleanAgentReply reply)
          (agentMsgMetadata agentName t now2)]) ∧
    (∀ (t2 : Nat) (s0 : DbState), t2 ≠ 0 →
      webhookTicketFilter t2 s0.conversations = [] →
      freshdeskWebhook (some t2) (some reply) agentName ticketStatus isres now2 s0 =
        (.notFound, s0, [])) := by
  have hguard : ¬ (t = 0 ∨ reply = "") := by
    rintro (h | h)
    · exact ht h
    · exact hreply h
  have hconvs : (escalateConversation (.created t) now domain cid reason s).1.conversations =
      updateConvRow cid (applyEscalation reason now (some t) domain) s.conversations := by
    have hf : s.conversations.lookup cid = some conv := hfound
    simp [escalateConversation, lookupConv, hf, hne, TicketOutcome.ticketId]
  have hfil : webhookTicketFilter t
      (escalateConversation (.created t) now domain cid reason s).1.conversations =
      [(cid, applyEscalation reason now (some t) domain conv)] := by
    rw [hconvs]
    exact webhookTicketFilter_after_escalation t reason now domain cid _ conv hnd hfound hu
  refine ⟨hfil, ?_, ?_, ?_⟩
  · simp only [freshdeskWebhook]
    rw [if_neg hguard, hfil]
    split
    · rename_i heq
      simp at heq
    · rename_i conversation tail heq
      rw [List.cons.injEq] at heq
      obtain ⟨h1, h2⟩ := heq
      subst h1
      split <;> rfl
  · simp only [freshdeskWebhook]
    rw [if_neg hguard, hfil]
    split
    · rename_i heq
      simp at heq
    · rename_i conversation tail heq
      rw [List.cons.injEq] at heq
      obtain ⟨h1, h2⟩ := heq
      subst h1
      split <;> simp
  · intro t2 s0 ht2 hfil0
    have hguard2 : ¬ (t2 = 0 ∨ reply = "") := by
      rintro (h | h)
      · exact ht2 h
      · exact hreply h
    simp only [freshdeskWebhook]
    rw [if_neg hguard2, hfil0]

theorem ticket_roundtrip_and_notfound_witness :
    (webhookTicketFilter 5
        (escalateConversation (.created 5) "t1" "fd" "c1" .explicit_request
          sampleState).1.conversations =
      [("c1", applyEscalation .explicit_request "t1" (some 5) "fd" sampleConv)]) ∧
    ((freshdeskWebhook (some 5) (some "Hello") "Agent Ada" none false "t2"
        (escalateConversation (.created 5) "t1" "fd" "c1" .explicit_request
          sampleState).1).1 = .ok) ∧
    ((freshdeskWebhook (some 5) (some "Hello") "Agent Ada" none false "t2"
        (escalateConversation (.created 5) "t1" "fd" "c1" .explicit_request
          sampleState).1).2.1.messages =
      (escalateConversation (.created 5) "t1" "fd" "c1" .explicit_request
          sampleState).1.messages ++
        [MsgRow.mk "c1" "agent" (cleanAgentReply "Hello")
          (agentMsgMetadata "Agent Ada" 5 "t2")]) ∧
    freshdeskWebhook (some 7) (some "Hello") "Agent Ada" none false "t2"
        (DbState.mk [] [] [] []) = (.notFound, DbState.mk [] [] [] [], []) :=
  let w := ticket_roundtrip_and_notfound 5 .explicit_request "t1" "t2" "fd" "c1"
    sampleState sampleConv "Hello" "Agent Ada" none false (by decide) (by decide)
    (by simp [sampleState])
    rfl (by decide)
    (by
      intro kv hkv
      simp only [sampleState, List.mem_singleton] at hkv
      subst hkv
      simp [sampleConv, sampleMeta, metaText])
  ⟨w.1, w.2.1, w.2.2.1, w.2.2.2 7 (DbState.mk [] [] [] []) (by decide) rfl⟩

/-! ### C10 — feedback endpoint validation -/

/-- C10: the feedback endpoint answers 400 and leaves the feedback table
unchanged whenever `messageId` is missing (or empty, JS-falsy) or the
rating is missing, zero, or any value other than exactly 1 or -1; whenever
the state changes at all, the rating was exactly 1 or -1. -/
theorem feedback_validation (messageId : Option String) (rating : Option Int)
    (feedbackText : Option String) (s : FeedbackState) :
    (messageId = none ∨ messageId = some "" →
      feedbackPost messageId rating feedbackText s = (.badRequest, s)) ∧
    ((∀ r, rating = some r → r ≠ 1 ∧ r ≠ -1) →
      feedbackPost messageId rating feedbackText s = (.badRequest, s)) ∧
    ((feedbackPost messageId rating feedbackText s).2 ≠ s →
      rating = some 1 ∨ rating = some (-1)) := by
  refine ⟨?_, ?_, ?_⟩
  · rintro (h | h) <;> subst h <;> cases rating <;> simp [feedbackPost]
  · intro hr
    cases messageId with
    | none => simp [feedbackPost]
    | some mid =>
      cases rating with
      | none => simp [feedbackPost]
      | some r =>
        obtain ⟨hr1, hr2⟩ := hr r rfl
        by_cases h0 : mid = "" ∨ r = 0
        · simp [feedbackPost, h0]
        · simp [feedbackPost, h0, hr1, hr2]
  · intro hchange
    cases messageId with
    | none => simp [feedbackPost] at hchange
    | some mid =>
      cases rating with
      | none => simp [feedbackPost] at hchange
      | some r =>
        by_cases h0 : mid = "" ∨ r = 0
        · simp [feedbackPost, h0] at hchange
        · by_cases h1 : r ≠ 1 ∧ r ≠ -1
          · simp [feedbackPost, h0, h1] at hchange
          · by_cases hr1 : r = 1
            · exact Or.inl (by rw [hr1])
            · have hr2 : r = -1 := by tauto
              exact Or.inr (by rw [hr2])

theorem feedback_validation_witness :
    feedbackPost (some "m1") (some 5) none (FeedbackState.mk [] 0) =
      (.badRequest, FeedbackState.mk [] 0) ∧
    feedbackPost none (some 1) none (FeedbackState.mk [] 0) =
      (.badRequest, FeedbackState.mk [] 0) :=
  ⟨(feedback_validation (some "m1") (some 5) none (FeedbackState.mk [] 0)).2.1
      (fun r h => by cases h; exact ⟨by decide, by decide⟩),
   (feedback_validation none (some 1) none (FeedbackState.mk [] 0)).1 (Or.inl rfl)⟩

end CustomerSupport
